import Mathlib

/-!
Verification of the download orchestration core (CorvidCache).

This file gives a shallow embedding, in Lean, of the parts of the
repository that the specification's claims talk about:

* the progress-line parsing loop of `DownloaderService.download._run_process`
  (src/app/services/downloader.py, lines 450-601),
* the result post-processing of `DownloaderService.download`
  (lines 603-639) and its cancellation-flag lifecycle,
* the cleanup helpers `_cleanup_partial_file`, `_cleanup_recent_partial_files`
  and `_delete_files_by_basename` (lines 641-763),
* the cancellation endpoint `cancel_download` (src/app/routers/downloads.py,
  lines 303-339) and the metadata pre-check of `extract_info` (lines 294-329
  of the service) as invoked by `process_download`,
* the selection logic of `check_subscription`
  (src/app/routers/subscriptions.py, lines 52-101).

Modelling conventions:

* Python strings are modelled as `List Char` (Lean `String` is used only at
  interfaces); all character/string helpers are hand-written structural
  functions so every definition evaluates inside the kernel.
* Python floats that arise here come from parsing decimal literals out of
  yt-dlp's output and from wall-clock timestamps; the model represents them
  as exact decimals `Dec` (a numerator over a power of ten) and compares
  them exactly.  For the percent values yt-dlp actually prints (at most a
  few fractional digits), exact-decimal and IEEE-double comparisons against
  the thresholds 50, 90, 99 and 99.9 agree.
* Filesystem paths are lists of path components; only regular files are
  modelled (the code's `is_file()` checks restrict deletion to files).
* `fnmatch`/`glob` pattern matching is modelled for the `*` and `?`
  wildcards, with every other character treated literally (the patterns the
  code builds are a filename stem followed by `*`, and title filters);
  bracket character classes of the Python library are not modelled.
-/

/-! ## Characters and strings -/

/-- Python `str.strip()` whitespace set (ASCII part): space, tab, newline,
carriage return, vertical tab, form feed. -/
def isPyWS (c : Char) : Bool :=
  decide (c = ' ' ∨ c = '\t' ∨ c = '\n' ∨ c = '\r' ∨ c = '\x0b' ∨ c = '\x0c')

/-- Python `str.strip()` on a character list. -/
def pyStripL (l : List Char) : List Char :=
  ((l.dropWhile isPyWS).reverse.dropWhile isPyWS).reverse

/-- Python's `pat in s` substring test. -/
def containsL (pat : List Char) : List Char → Bool
  | [] => pat.isEmpty
  | c :: cs => pat.isPrefixOf (c :: cs) || containsL pat cs

/-- Everything after the first occurrence of `pat`, i.e. Python's
`s.split(pat, 1)[1]` (unspecified, here `[]`, when `pat` does not occur). -/
def afterFirstL (pat : List Char) : List Char → List Char
  | [] => []
  | c :: cs =>
    if pat.isPrefixOf (c :: cs) then (c :: cs).drop pat.length
    else afterFirstL pat cs

/-- Lowercase a string character-wise (ASCII behaviour of `str.lower`). -/
def strLower (s : String) : String := String.mk (s.data.map Char.toLower)

/-! ## Exact decimals standing in for the parsed floats -/

/-- An exact decimal `m / 10 ^ e`.  Stands in for the Python floats parsed
from progress lines and for wall-clock timestamps. -/
structure Dec where
  m : Nat
  e : Nat
deriving DecidableEq

/-- `a ≤ b` on decimals, by cross multiplication. -/
def Dec.le (a b : Dec) : Bool := decide (a.m * 10 ^ b.e ≤ b.m * 10 ^ a.e)

/-- `a < b` on decimals, by cross multiplication. -/
def Dec.lt (a b : Dec) : Bool := decide (a.m * 10 ^ b.e < b.m * 10 ^ a.e)

/-- `t - last ≥ 0.5`, i.e. `last + 1/2 ≤ t`, on decimals.  Models the
throttle test `current_time - last_progress_time >= 0.5`. -/
def Dec.elapsedHalf (last t : Dec) : Bool :=
  decide (2 * last.m * 10 ^ t.e + 10 ^ (t.e + last.e) ≤ 2 * t.m * 10 ^ last.e)

/-- The threshold `50`. -/
def d50 : Dec := ⟨50, 0⟩

/-- The threshold `90`. -/
def d90 : Dec := ⟨90, 0⟩

/-- The threshold `99`. -/
def d99 : Dec := ⟨99, 0⟩

/-- The threshold `99.9`. -/
def d999 : Dec := ⟨999, 1⟩

/-! ## The percent regex

`re.search(r'(\d+\.?\d*)%', line)` with `float(match.group(1))`.
With this pattern, a match starting at position `i` exists exactly when a
maximal nonempty digit run at `i` is followed either directly by `%`, or by
`.`, a maximal (possibly empty) digit run, and then `%`; `re.search` returns
the leftmost such match.  Digits are ASCII digits. -/

/-- Numeric value of a digit run. -/
def digitsToNat (l : List Char) : Nat :=
  l.foldl (fun a c => a * 10 + (c.toNat - 48)) 0

/-- `float` of a matched group `digits['.' digits]`, as an exact decimal. -/
def groupToDec (g : List Char) : Dec :=
  let ip := g.takeWhile Char.isDigit
  let fr := (g.drop ip.length).drop 1
  ⟨digitsToNat (ip ++ fr), fr.length⟩

/-- The group matched by `(\d+\.?\d*)%` when the match starts at the head of
`l`, if any. -/
def percentGroupAt (l : List Char) : Option (List Char) :=
  let ds := l.takeWhile Char.isDigit
  if ds.isEmpty then none
  else
    match l.drop ds.length with
    | '%' :: _ => some ds
    | '.' :: r2 =>
      (let ds2 := r2.takeWhile Char.isDigit
       match r2.drop ds2.length with
       | '%' :: _ => some (ds ++ '.' :: ds2)
       | _ => none)
    | _ => none

/-- Leftmost match of the percent regex over the whole line, already
converted by `float`: the percent value the loop works with. -/
def percentSearch : List Char → Option Dec
  | [] => none
  | c :: cs =>
    match percentGroupAt (c :: cs) with
    | some g => some (groupToDec g)
    | none => percentSearch cs

/-! ## Paths (pathlib fragment used by the code) -/

/-- A filesystem path, as its list of components. -/
abbrev FPath := List String

/-- Split on `/` (the model uses POSIX separators). -/
def splitSlash : List Char → List (List Char)
  | [] => [[]]
  | c :: cs =>
    let r := splitSlash cs
    if c = '/' then [] :: r
    else
      match r with
      | [] => [[c]]
      | h :: t => (c :: h) :: t

/-- `Path(s)` as a component list; empty and `.` components are dropped, as
pathlib does when parsing. -/
def toFPath (s : String) : FPath :=
  ((splitSlash s.data).map (fun l => String.mk l)).filter
    (fun c => decide (c ≠ "" ∧ c ≠ "."))

/-- `Path.name`: the final component (empty for the empty path). -/
def fname (p : FPath) : String := p.getLastD ""

/-- `Path.parent` as a component list. -/
def fparent (p : FPath) : FPath := p.dropLast

/-- Index of the last `.` in a name, Python's `name.rfind('.')`. -/
def lastDotIdx (n : List Char) : Option Nat :=
  match n.reverse.findIdx? (fun c => c = '.') with
  | none => none
  | some j => some (n.length - 1 - j)

/-- `Path.stem` of a name: `name[:i]` for `i = name.rfind('.')` when
`0 < i < len(name) - 1`, else the whole name. -/
def pstemL (n : List Char) : List Char :=
  match lastDotIdx n with
  | some i => if 0 < i ∧ i < n.length - 1 then n.take i else n
  | none => n

/-- `Path.suffix` of a name: `name[i:]` under the same condition, else
empty. -/
def psuffixL (n : List Char) : List Char :=
  match lastDotIdx n with
  | some i => if 0 < i ∧ i < n.length - 1 then n.drop i else []
  | none => []

/-- `Path(s).stem` for a path given as a string. -/
def pstem (s : String) : String := String.mk (pstemL (fname (toFPath s)).data)

/-- `Path(s).suffix` for a path given as a string. -/
def pathSuffix (s : String) : String :=
  String.mk (psuffixL (fname (toFPath s)).data)

/-! ## Glob / fnmatch matching (`*` and `?` wildcards) -/

/-- Wildcard matching as used by `fnmatch.fnmatch` and `Path.glob` for the
patterns the code builds: `*` matches any (possibly empty) sequence, `?` any
single character, everything else itself. -/
def globM : List Char → List Char → Bool
  | [], s => s.isEmpty
  | c :: p, s =>
    if c = '*' then (List.range (s.length + 1)).any (fun n => globM p (s.drop n))
    else
      match s with
      | [] => false
      | c' :: s' => if c = '?' then globM p s' else (c == c') && globM p s'

/-! ## The progress parsing loop

`DownloaderService.download._run_process` (downloader.py 450-601) reads the
child's combined output one line at a time.  A line is modelled by the text
it carries together with the per-iteration environment the loop consults:
the opaque results of the speed/ETA regexes (they are only carried into
events, never inspected), the `Path(line).exists()` answer, the wall-clock
time `time.time()` read at the throttle test, and the value of
`self._cancel_flags.get(download_id)` observed at the top of the
iteration. -/

structure LineInfo where
  text : String
  speedField : Option String
  etaField : Option String
  existsOnDisk : Bool
  time : Dec
  cancelSeen : Bool
deriving DecidableEq

/-- A plain progress line with no speed/ETA groups, not on disk, not
cancelled. -/
def mkLine (text : String) (t : Dec) : LineInfo := ⟨text, none, none, false, t, false⟩

/-- The events the loop hands to the progress callback, plus the stream
reset.  The code does not call the callback for a reset: the reset is the
internal "new stream detected" transition (downloader.py 515-517), which
logs and re-arms the processing-status flag; the spec calls this transition
the `StreamReset` event, and the model records it at exactly that point. -/
inductive PEvent where
  | streamReset
  | downloading (percent : Dec) (speed eta : Option String)
  | processing (step : String)
deriving DecidableEq

/-- Is this a `downloading` event? -/
def isDownloadingEv : PEvent → Bool
  | PEvent.downloading _ _ _ => true
  | _ => false

/-- Is this a `streamReset` event? -/
def isResetEv : PEvent → Bool
  | PEvent.streamReset => true
  | _ => false

/-- The loop's local state: `current_file["path"]`, `filename`,
`last_progress_time`, `last_progress_value`, `sent_processing_status`. -/
structure LoopState where
  currentFile : Option String
  filename : Option String
  lastT : Dec
  lastVal : Dec
  sent : Bool
deriving DecidableEq

/-- Initial loop state: `filename = None`, `last_progress_time = 0`,
`last_progress_value = 0`, `sent_processing_status = False`,
`current_file = {"path": None}`. -/
def initLoopState : LoopState := ⟨none, none, ⟨0, 0⟩, ⟨0, 0⟩, false⟩

/-- The table `pp_patterns` of downloader.py 553-564, in insertion order. -/
def ppDescrs : List (String × String) :=
  [("[Merger]", "Merging video and audio"),
   ("[FFmpegVideoConvertor]", "Converting video format"),
   ("[ExtractAudio]", "Extracting audio"),
   ("[FFmpegMetadata]", "Embedding metadata"),
   ("[EmbedThumbnail]", "Embedding thumbnail"),
   ("[FFmpegEmbedSubtitle]", "Embedding subtitles"),
   ("[FFmpegVideoRemuxer]", "Remuxing video"),
   ("[MoveFiles]", "Moving files"),
   ("[ModifyChapters]", "Processing chapters"),
   ("[SponsorBlock]", "Processing sponsor segments")]

/-- The body of the percent branch (downloader.py 499-548) once the percent
regex has matched with value `p`: stream-reset detection, update of
`last_progress_value`, the throttle test, and the callback dispatch
(`Processing("Processing...")` at ≥ 99.9 when not yet sent, otherwise a
`Downloading` event when not suppressed). -/
def stepProg (cb : Bool) (s : LoopState) (p : Dec) (speed eta : Option String)
    (t : Dec) : List PEvent × LoopState :=
  let isReset := Dec.lt p d50 && Dec.lt d90 s.lastVal
  let resetEvs : List PEvent := if isReset then [PEvent.streamReset] else []
  let sent0 := if isReset then false else s.sent
  let shouldUpd := Dec.elapsedHalf s.lastT t || Dec.le d99 p
  if cb && shouldUpd then
    if Dec.le d999 p && !sent0 then
      (resetEvs ++ [PEvent.processing "Processing..."],
        ⟨s.currentFile, s.filename, t, p, true⟩)
    else if !sent0 then
      (resetEvs ++ [PEvent.downloading p speed eta],
        ⟨s.currentFile, s.filename, t, p, sent0⟩)
    else
      (resetEvs, ⟨s.currentFile, s.filename, t, p, sent0⟩)
  else
    (resetEvs, ⟨s.currentFile, s.filename, s.lastT, p, sent0⟩)

/-- The destination path a line contributes (the `Destination:` branch,
downloader.py 492-495). -/
def destPath (l : LineInfo) : Option String :=
  let line := pyStripL l.text.data
  if containsL ("[download] Destination:").data line then
    some (String.mk (pyStripL (afterFirstL ("Destination:").data line)))
  else none

/-- The final-filepath candidate a line contributes (the trailing capture,
downloader.py 581-584). -/
def capturedPath (l : LineInfo) : Option String :=
  let line := pyStripL l.text.data
  if !line.isEmpty && !(("[").data.isPrefixOf line) &&
      !(psuffixL (fname (toFPath (String.mk line))).data).isEmpty &&
      (l.existsOnDisk || !containsL ("%").data line) then
    some (String.mk line)
  else none

/-- One iteration of the line loop on an (already stripped, nonempty) line:
the `Destination:` branch, the percent branch, the postprocessor-tag branch,
and the trailing final-filepath capture (downloader.py 491-584), the latter
factored through the observer `capturedPath` (same condition and value).
`cb` is whether a progress callback was supplied. -/
def stepLine (cb : Bool) (s : LoopState) (l : LineInfo) : List PEvent × LoopState :=
  let line := pyStripL l.text.data
  let es1 :=
    if containsL ("[download] Destination:").data line then
      ([], (⟨some (String.mk (pyStripL (afterFirstL ("Destination:").data line))),
        s.filename, s.lastT, s.lastVal, s.sent⟩ : LoopState))
    else if containsL ("[download]").data line && containsL ("%").data line then
      match percentSearch line with
      | some p => stepProg cb s p l.speedField l.etaField l.time
      | none => ([], s)
    else if ("[").data.isPrefixOf line && cb then
      match ppDescrs.find? (fun pr => pr.1.data.isPrefixOf line) with
      | some pr => ([PEvent.processing pr.2],
          ⟨s.currentFile, s.filename, s.lastT, s.lastVal, true⟩)
      | none => ([], s)
    else ([], s)
  let s1 := es1.2
  let s2 :=
    match capturedPath l with
    | some fp => (⟨s1.currentFile, some fp, s1.lastT, s1.lastVal, s1.sent⟩ : LoopState)
    | none => s1
  (es1.1, s2)

/-- Outcome of the line loop: either the cancellation flag was seen at the
top of an iteration (the process is terminated and
`{"cancelled": True, "partial_file": current_file["path"]}` is returned), or
all lines were consumed. -/
inductive LoopOut where
  | cancelledMid (events : List PEvent) (partialFile : Option String)
  | done (events : List PEvent) (st : LoopState)

/-- The events produced by a loop outcome. -/
def LoopOut.events : LoopOut → List PEvent
  | LoopOut.cancelledMid es _ => es
  | LoopOut.done es _ => es

/-- The line loop (downloader.py 474-584): strip, skip empty lines, check
the cancellation flag, then process the line. -/
def runLines (cb : Bool) (s : LoopState) : List LineInfo → LoopOut
  | [] => LoopOut.done [] s
  | l :: ls =>
    if (pyStripL l.text.data).isEmpty then runLines cb s ls
    else if l.cancelSeen then LoopOut.cancelledMid [] s.currentFile
    else
      let es := stepLine cb s l
      match runLines cb es.2 ls with
      | LoopOut.cancelledMid es2 pf => LoopOut.cancelledMid (es.1 ++ es2) pf
      | LoopOut.done es2 st => LoopOut.done (es.1 ++ es2) st

/-- The dictionary `_run_process` returns, as a sum. -/
inductive RunResult where
  | cancelled (partialFile : Option String)
  | success (filename : Option String)
  | failure (error : String)
deriving DecidableEq

/-- `a or b` on optional strings (the captured values are nonempty). -/
def optOr (a b : Option String) : Option String :=
  match a with
  | some x => some x
  | none => b

/-- `_run_process` end to end (downloader.py 450-601): run the line loop,
then `process.wait()`, the post-loop cancellation check (`cancelAfter`), and
the exit-code dispatch.  `exn` models an exception raised during the loop
and caught by the handler at lines 596-598, which turns it into a failure
dictionary. -/
def runProcess (cb : Bool) (lines : List LineInfo) (exn : Option String)
    (cancelAfter : Bool) (returncode : Int) : RunResult :=
  match exn with
  | some msg => RunResult.failure msg
  | none =>
    match runLines cb initLoopState lines with
    | LoopOut.cancelledMid _ pf => RunResult.cancelled pf
    | LoopOut.done _ st =>
      if cancelAfter then RunResult.cancelled st.currentFile
      else if returncode = 0 then RunResult.success (optOr st.filename st.currentFile)
      else RunResult.failure ("yt-dlp exited with code " ++ toString returncode)

/-! ### Observers on single lines (used to state the claims) -/

/-- The percent the loop parses from a line: the leftmost percent-regex
match, provided the line lands in the percent branch (it is not a
`Destination:` line and contains both `[download]` and `%`). -/
def parsedPercent (l : LineInfo) : Option Dec :=
  let line := pyStripL l.text.data
  if containsL ("[download] Destination:").data line then none
  else if containsL ("[download]").data line && containsL ("%").data line then
    percentSearch line
  else none

/-- The last value of `f` over a list of lines, later lines taking
precedence. -/
def lastSome (f : LineInfo → Option String) : List LineInfo → Option String
  | [] => none
  | l :: ls => optOr (lastSome f ls) (f l)

/-- Percentages of `downloading` events are non-decreasing between
consecutive `streamReset` events (auxiliary scan, carrying the previous
percent since the last reset). -/
def monotoneBRAux : Option Dec → List PEvent → Bool
  | _, [] => true
  | _, PEvent.streamReset :: es => monotoneBRAux none es
  | prev, PEvent.downloading p _ _ :: es =>
    (match prev with
     | none => true
     | some q => Dec.le q p) && monotoneBRAux (some p) es
  | prev, PEvent.processing _ :: es => monotoneBRAux prev es

/-- Percentages of `downloading` events are non-decreasing between
consecutive `streamReset` events. -/
def monotoneBR (es : List PEvent) : Bool := monotoneBRAux none es

/-! ## The download() wrapper and its result dictionary

`DownloaderService.download` (downloader.py 603-639) awaits `_run_process`
in an executor and converts its outcome into the dictionary it returns.
The await can also end in `asyncio.CancelledError` (caught at 622) or in
any other exception (caught at 630); both handlers return dictionaries. -/

/-- How the `await loop.run_in_executor(None, _run_process)` ends. -/
inductive AwaitBehavior where
  | normal
  | taskCancelled
  | raised (msg : String)

/-- The dictionary `download` returns: the `success` flag, the optional
`error` string, the `cancelled` marker and the optional `filename`. -/
structure DLResult where
  success : Bool
  error : Option String
  cancelled : Bool
  filename : Option String
deriving DecidableEq

/-- `DownloaderService.download`'s return value (lines 603-632), for a given
`_run_process` input and await behaviour.  Every path — cancelled result,
success, failure, `asyncio.CancelledError`, or any other exception — ends in
a returned dictionary; nothing is re-raised. -/
def downloadModel (cb : Bool) (lines : List LineInfo) (exn : Option String)
    (cancelAfter : Bool) (returncode : Int) (awaitB : AwaitBehavior) : DLResult :=
  match awaitB with
  | AwaitBehavior.taskCancelled => ⟨false, some "Download cancelled", true, none⟩
  | AwaitBehavior.raised msg => ⟨false, some msg, false, none⟩
  | AwaitBehavior.normal =>
    match runProcess cb lines exn cancelAfter returncode with
    | RunResult.cancelled _ => ⟨false, some "Download cancelled", true, none⟩
    | RunResult.success fn => ⟨true, none, false, fn⟩
    | RunResult.failure e => ⟨false, some e, false, none⟩

/-! ## The cancellation flag lifecycle

The operations of the core that write `self._cancel_flags` for a job id:
`download` sets the id's flag to `False` on entry (downloader.py 403),
`cancel_download` sets it to `True` (line 689), and `download`'s `finally`
block removes the entry (lines 634-635).  A retried job
(routers/downloads.py 384-411) starts a fresh `process_download`, hence a
fresh `download` entry write. -/

/-- A write to `_cancel_flags`. -/
inductive FlagOp where
  | downloadStart (id : Int)
  | cancelRequest (id : Int)
  | downloadFinally (id : Int)
deriving DecidableEq

/-- Apply one write to the flag map (`none` = key absent). -/
def applyFlagOp (m : Int → Option Bool) : FlagOp → Int → Option Bool
  | FlagOp.downloadStart i => fun j => if j = i then some false else m j
  | FlagOp.cancelRequest i => fun j => if j = i then some true else m j
  | FlagOp.downloadFinally i => fun j => if j = i then none else m j

/-- Apply a sequence of writes. -/
def applyFlagOps (m : Int → Option Bool) (ops : List FlagOp) : Int → Option Bool :=
  ops.foldl applyFlagOp m

/-- The empty flag map. -/
def noFlags : Int → Option Bool := fun _ => none

/-! ## The metadata-extraction cancellation pre-check

`DownloaderService.extract_info` (downloader.py 294-329): its worker first
runs `if download_id and self._cancel_flags.get(download_id): raise
Exception("Download cancelled")` and only then performs the extraction.
`process_download` (routers/downloads.py 68) invokes it as
`extract_info(url)` — without a download id. -/

/-- How an `extract_info` call begins. -/
inductive ExtractOutcome where
  | cancelledBeforeStart
  | performed
deriving DecidableEq

/-- The pre-check of `extract_info`'s worker.  `download_id` is optional and
Python-truthiness applies: `None` and `0` skip the check entirely. -/
def extractInfoModel (flags : Int → Option Bool) (downloadId : Option Int) :
    ExtractOutcome :=
  match downloadId with
  | none => ExtractOutcome.performed
  | some i =>
    if i ≠ 0 ∧ (flags i).getD false = true then ExtractOutcome.cancelledBeforeStart
    else ExtractOutcome.performed

/-- The metadata call of the job pipeline: `process_download` passes no
download id to `extract_info` (routers/downloads.py 68), whatever job it is
processing. -/
def processDownloadExtract (flags : Int → Option Bool) (_jobId : Int) :
    ExtractOutcome :=
  extractInfoModel flags none

/-! ## The cancellation endpoint

`cancel_download` in routers/downloads.py 303-339: 404 when the record does
not exist; for an active record (queued / downloading / fetching_info) it
invokes the service cancel, stores `cancelled`, broadcasts the `cancelled`
event and answers `"cancelled"`; for any other (terminal) record it deletes
the record and answers `"deleted"`, without broadcasting and without calling
the service. -/

/-- Lifecycle states of a download record. -/
inductive DStatus where
  | queued
  | fetching_info
  | downloading
  | completed
  | failed
  | cancelled
deriving DecidableEq

/-- What the endpoint did: HTTP error, whether the `cancelled` event was
broadcast, whether `downloader_service.cancel_download` was invoked, the
stored record afterwards (`none` = deleted), and the response body. -/
structure CancelResponse where
  httpError : Option Nat
  broadcastsCancelled : Bool
  serviceCancelInvoked : Bool
  recordAfter : Option DStatus
  body : String
deriving DecidableEq

/-- The endpoint, as a function of the stored record. -/
def routerCancelDownload (record : Option DStatus) : CancelResponse :=
  match record with
  | none => ⟨some 404, false, false, none, ""⟩
  | some st =>
    if st = DStatus.queued ∨ st = DStatus.downloading ∨ st = DStatus.fetching_info then
      ⟨none, true, true, some DStatus.cancelled, "cancelled"⟩
    else
      ⟨none, false, false, none, "deleted"⟩

/-! ## Cleanup of partial files and the marker sweep

`_delete_files_by_basename(directory, base_name)` (downloader.py 748-763)
unlinks every regular file in `directory` matching the glob
`f"{base_name}*"`.  `_cleanup_partial_file(filepath)` (641-664) applies it
to the file's parent directory with the file's stem.
`_cleanup_recent_partial_files` (714-746) walks the downloads directory
recursively for `*.ytdl` markers and, for each, deletes all files in the
marker's directory sharing the stem of the marker's video file, then the
marker itself.  `cancel_download` (686-712) sets the flag, terminates the
process, cleans the job's current file if known, and always ends with the
sweep.  The filesystem is a list of file paths. -/

/-- Delete, from the file list, every file of `directory` whose name
matches `base_name*`. -/
def deleteFilesByBasename (fs : List FPath) (directory : FPath) (base : String) :
    List FPath :=
  fs.filter (fun f =>
    !(decide (fparent f = directory) && globM (base.data ++ ['*']) (fname f).data))

/-- `_cleanup_partial_file`: no-op on an empty path, otherwise a basename
deletion in the path's parent with the path's stem. -/
def cleanupPartialFile (filepath : String) (fs : List FPath) : List FPath :=
  if filepath = "" then fs
  else deleteFilesByBasename fs (fparent (toFPath filepath)) (pstem filepath)

/-- The video file a `.ytdl` marker points at: the path string with its last
five characters (`.ytdl`) removed, i.e. the last component truncated by
five characters. -/
def videoOf (m : FPath) : FPath :=
  fparent m ++ [String.mk ((fname m).data.take ((fname m).data.length - 5))]

/-- Processing of one `.ytdl` marker inside the sweep: delete all files in
the video file's directory sharing its stem, then the marker itself. -/
def ytdlStep (cur : List FPath) (m : FPath) : List FPath :=
  (deleteFilesByBasename cur (fparent (videoOf m)) (pstem (fname (videoOf m)))).filter
    (fun f => decide (f ≠ m))

/-- Is `p` strictly below the directory `dir`? (`rglob` results always
are.) -/
def underDir (dir p : FPath) : Bool := decide (dir <+: p ∧ dir ≠ p)

/-- `_cleanup_recent_partial_files`: find every `*.ytdl` file below the
downloads directory and process each marker in turn. -/
def cleanupSweepFS (fs : List FPath) (dir : FPath) : List FPath :=
  (fs.filter (fun p => underDir dir p && globM (("*.ytdl").data) (fname p).data)).foldl
    ytdlStep fs

/-- `cancel_download`'s filesystem effect: clean the job's current file when
one is recorded, then — always — run the recursive marker sweep of the
downloads directory. -/
def cancelDownloadFS (dir : FPath) (currentFile : Option String) (fs : List FPath) :
    List FPath :=
  cleanupSweepFS
    (match currentFile with
     | some fp => cleanupPartialFile fp fs
     | none => fs) dir

/-! ## Subscription checking

`check_subscription` (routers/subscriptions.py 30-113): after resolving the
item list (each entry carrying `already_downloaded = video_id in history`,
set by `get_playlist_entries`), it drops members-only entries unless
included, applies the case-insensitive `fnmatch` title filter when one is
set, truncates to the newest `keep_last_n` when that is a positive number,
and enqueues a download for every remaining entry not already downloaded. -/

/-- A resolved playlist entry (the fields the selection logic reads). -/
structure SubEntry where
  video_id : String
  title : String
  members_only : Bool
  already_downloaded : Bool
deriving DecidableEq

/-- The entry list after the members-only filter and the title filter
(`title_filter` is optional and the empty string counts as unset, by Python
truthiness). -/
def subscriptionFiltered (includeMembers : Bool) (titleFilter : Option String)
    (entries : List SubEntry) : List SubEntry :=
  let e1 := if includeMembers then entries else entries.filter (fun e => !e.members_only)
  match titleFilter with
  | some pat =>
    if pat = "" then e1
    else e1.filter (fun e => globM (strLower pat).data (strLower e.title).data)
  | none => e1

/-- The entries `check_subscription` enqueues: the filtered list, truncated
to `keep_last_n` when that is set and positive, minus the entries already in
history. -/
def subscriptionNewVideos (includeMembers : Bool) (titleFilter : Option String)
    (keepLastN : Option Int) (entries : List SubEntry) : List SubEntry :=
  let e2 := subscriptionFiltered includeMembers titleFilter entries
  let e3 :=
    match keepLastN with
    | some n => if 0 < n then e2.take n.toNat else e2
    | none => e2
  e3.filter (fun e => !e.already_downloaded)

/-! ## Claim C2 — partial-file cleanup on the spec's example directory -/

/-- The directory of C2: `video.mp4`, `video.mp4.part`, `video.f140.m4a`,
`video.jpg`, `video2.mp4`, all inside the downloads folder `dl`. -/
def c2Dir : List FPath :=
  [["dl", "video.mp4"], ["dl", "video.mp4.part"], ["dl", "video.f140.m4a"],
   ["dl", "video.jpg"], ["dl", "video2.mp4"]]

/-- C2, counterexample: cleanup with base path `"dl/video.mp4"` does NOT
leave `video2.mp4` untouched — the glob `video*` built from the stem
`video` matches `video2.mp4` as well, so it is deleted. -/
theorem c2_counterexample :
    ["dl", "video2.mp4"] ∈ c2Dir ∧
    ["dl", "video2.mp4"] ∉ cleanupPartialFile "dl/video.mp4" c2Dir := by
  decide

/-- C2, amended: cleanup with base path `"video.mp4"` on that directory
deletes all five files — every file whose name starts with the stem
`video`, which includes `video2.mp4`. -/
theorem c2_amended_all_deleted :
    cleanupPartialFile "dl/video.mp4" c2Dir = [] := by
  decide

/-! ## Claim C3 — cancelling a job already in a terminal state -/

/-- C3, counterexample: a cancellation request for a completed job does not
leave the stored record unchanged — the endpoint deletes it. -/
theorem c3_counterexample :
    (routerCancelDownload (some DStatus.completed)).recordAfter ≠
      some DStatus.completed := by
  decide

/-- C3, amended: for a job in a terminal state the cancellation request
emits no event, raises no error and does not invoke the service cancel, but
it deletes the job's stored record and answers `"deleted"` (the DELETE
endpoint doubles as record deletion for non-active jobs). -/
theorem c3_amended : ∀ st : DStatus,
    st = DStatus.completed ∨ st = DStatus.failed ∨ st = DStatus.cancelled →
    routerCancelDownload (some st) = ⟨none, false, false, none, "deleted"⟩ := by
  intro st h
  rcases h with h | h | h <;> subst h <;> decide

/-- Witness for `c3_amended` at the completed state. -/
theorem c3_amended_witness :
    (DStatus.completed = DStatus.completed ∨ DStatus.completed = DStatus.failed ∨
      DStatus.completed = DStatus.cancelled) ∧
    routerCancelDownload (some DStatus.completed) =
      ⟨none, false, false, none, "deleted"⟩ :=
  ⟨Or.inl rfl, c3_amended DStatus.completed (Or.inl rfl)⟩

/-! ## Claim C4 — cancellation pre-check of the metadata call -/

/-- A flag map with job 1 already cancelled. -/
def c4Flags : Int → Option Bool := fun i => if i = 1 then some true else none

/-- C4, counterexample: job 1's cancellation flag is set, yet the metadata
call of the job pipeline performs the extraction — `process_download`
invokes `extract_info(url)` without a download id, so the pre-check never
sees the flag. -/
theorem c4_counterexample :
    (c4Flags 1).getD false = true ∧
    processDownloadExtract c4Flags 1 = ExtractOutcome.performed := by
  exact ⟨rfl, rfl⟩

/-- C4, amended: `extract_info` checks the flag and fails fast before the
extraction when it is given a nonzero download id whose flag is set; but
the job pipeline's metadata call passes no download id, so it always
performs the extraction, even for a job whose flag is already set. -/
theorem c4_amended : ∀ (flags : Int → Option Bool) (i : Int),
    (i ≠ 0 → (flags i).getD false = true →
      extractInfoModel flags (some i) = ExtractOutcome.cancelledBeforeStart) ∧
    (∀ j : Int, processDownloadExtract flags j = ExtractOutcome.performed) := by
  intro flags i
  refine ⟨fun hne hflag => ?_, fun _ => rfl⟩
  show (if i ≠ 0 ∧ (flags i).getD false = true then ExtractOutcome.cancelledBeforeStart
    else ExtractOutcome.performed) = ExtractOutcome.cancelledBeforeStart
  rw [if_pos ⟨hne, hflag⟩]

/-- Witness for `c4_amended` at job id 1 with its flag set. -/
theorem c4_amended_witness :
    ((1 : Int) ≠ 0) ∧ (c4Flags 1).getD false = true ∧
    extractInfoModel c4Flags (some 1) = ExtractOutcome.cancelledBeforeStart ∧
    processDownloadExtract c4Flags 1 = ExtractOutcome.performed := by
  have h := c4_amended c4Flags 1
  exact ⟨by decide, rfl, h.1 (by decide) rfl, h.2 1⟩

/-! ## Claim C5 — the cancellation flag is not one-shot -/

/-- C5, counterexample: the flag for job 1 is reset by the core's own
operations.  After `cancel_download` sets it, `download`'s `finally` block
removes it (reset to absent); and a cancel that lands before `download`
starts (the retry path re-enters `download`) is overwritten to `False`. -/
theorem c5_counterexample :
    applyFlagOps noFlags [FlagOp.downloadStart 1, FlagOp.cancelRequest 1] 1 = some true ∧
    applyFlagOps noFlags
      [FlagOp.downloadStart 1, FlagOp.cancelRequest 1, FlagOp.downloadFinally 1] 1 = none ∧
    applyFlagOps noFlags [FlagOp.cancelRequest 1, FlagOp.downloadStart 1] 1 = some false := by
  exact ⟨rfl, rfl, rfl⟩

/-- C5, amended: the flag is reset only by `download`'s own lifecycle writes
for the same job id — the `False` initialisation at entry and the removal in
the `finally` block.  Excluding those two operations, once the flag is true
it stays true under every later operation of the core. -/
theorem c5_amended : ∀ (m : Int → Option Bool) (ops : List FlagOp) (i : Int),
    m i = some true →
    (∀ op ∈ ops, op ≠ FlagOp.downloadStart i ∧ op ≠ FlagOp.downloadFinally i) →
    applyFlagOps m ops i = some true := by
  intro m ops
  induction ops generalizing m with
  | nil => intro i h _; exact h
  | cons op rest ih =>
    intro i h hops
    have hop := hops op (List.mem_cons_self op rest)
    have hrest : ∀ op' ∈ rest,
        op' ≠ FlagOp.downloadStart i ∧ op' ≠ FlagOp.downloadFinally i :=
      fun op' hmem => hops op' (List.mem_cons_of_mem op hmem)
    have hstep : applyFlagOp m op i = some true := by
      cases op with
      | downloadStart j =>
        have hji : ¬ i = j := fun he => hop.1 (by rw [he])
        simpa [applyFlagOp, hji] using h
      | cancelRequest j =>
        by_cases hij : i = j <;> simp [applyFlagOp, hij, h]
      | downloadFinally j =>
        have hji : ¬ i = j := fun he => hop.2 (by rw [he])
        simpa [applyFlagOp, hji] using h
    show applyFlagOps (applyFlagOp m op) rest i = some true
    exact ih (applyFlagOp m op) i hstep hrest

/-- Witness for `c5_amended`: a cancel for another job does not clear job
1's flag. -/
theorem c5_amended_witness :
    ((fun j : Int => if j = 1 then some true else none) 1 = some true) ∧
    (∀ op ∈ [FlagOp.cancelRequest 2],
      op ≠ FlagOp.downloadStart 1 ∧ op ≠ FlagOp.downloadFinally 1) ∧
    applyFlagOps (fun j : Int => if j = 1 then some true else none)
      [FlagOp.cancelRequest 2] 1 = some true := by
  refine ⟨rfl, by decide, ?_⟩
  exact c5_amended _ _ 1 rfl (by decide)

/-! ## Claim C8 — subscription check with `keep_last_n = 3` -/

/-- The filtered entry list is a sublist of the resolved entries. -/
theorem subscriptionFiltered_subset (incl : Bool) (tf : Option String)
    (entries : List SubEntry) :
    subscriptionFiltered incl tf entries ⊆ entries := by
  unfold subscriptionFiltered
  have h1 : (if incl then entries else entries.filter (fun e => !e.members_only)) ⊆
      entries := by
    split
    · exact fun _ h => h
    · exact List.filter_subset' entries
  cases tf with
  | none => exact h1
  | some pat =>
    by_cases hp : pat = ""
    · simpa [hp] using h1
    · simp only [hp, if_false]
      exact fun x hx => h1 (List.filter_subset' _ hx)

/-- C8: with `keep_last_n = 3`, the enqueued set is exactly the first three
entries of the filtered list (resolution order) minus those already in
history; in particular at most three jobs are enqueued, each for one of the
first three filtered entries and not already present in history. -/
theorem c8_keep_last_three : ∀ (includeMembers : Bool) (titleFilter : Option String)
    (history : List String) (entries : List SubEntry),
    (subscriptionFiltered includeMembers titleFilter entries).length = 10 →
    (∀ e ∈ entries, e.already_downloaded = decide (e.video_id ∈ history)) →
    subscriptionNewVideos includeMembers titleFilter (some 3) entries =
      ((subscriptionFiltered includeMembers titleFilter entries).take 3).filter
        (fun e => !e.already_downloaded) ∧
    (subscriptionNewVideos includeMembers titleFilter (some 3) entries).length ≤ 3 ∧
    ∀ e ∈ subscriptionNewVideos includeMembers titleFilter (some 3) entries,
      e ∈ (subscriptionFiltered includeMembers titleFilter entries).take 3 ∧
      e.video_id ∉ history := by
  intro incl tf history entries _hlen hhist
  have hdef : subscriptionNewVideos incl tf (some 3) entries =
      ((subscriptionFiltered incl tf entries).take 3).filter
        (fun e => !e.already_downloaded) := rfl
  refine ⟨hdef, ?_, ?_⟩
  · rw [hdef]
    calc (((subscriptionFiltered incl tf entries).take 3).filter
          (fun e => !e.already_downloaded)).length
        ≤ ((subscriptionFiltered incl tf entries).take 3).length :=
          List.length_filter_le _ _
      _ ≤ 3 := List.length_take_le _ _
  · intro e he
    rw [hdef] at he
    have h1 := List.mem_filter.mp he
    refine ⟨h1.1, ?_⟩
    have hmem : e ∈ entries :=
      subscriptionFiltered_subset incl tf entries (List.take_subset _ _ h1.1)
    have hado := hhist e hmem
    have hnd : e.already_downloaded = false := by simpa using h1.2
    rw [hnd] at hado
    intro hin
    rw [decide_eq_true hin] at hado
    exact Bool.false_ne_true hado

/-- Ten resolved entries for the C8 witness; `v02` is already in history. -/
def c8Entries : List SubEntry :=
  [⟨"v01", "t01", false, false⟩, ⟨"v02", "t02", false, true⟩,
   ⟨"v03", "t03", false, false⟩, ⟨"v04", "t04", false, false⟩,
   ⟨"v05", "t05", false, false⟩, ⟨"v06", "t06", false, false⟩,
   ⟨"v07", "t07", false, false⟩, ⟨"v08", "t08", false, false⟩,
   ⟨"v09", "t09", false, false⟩, ⟨"v10", "t10", false, false⟩]

/-- Witness for `c8_keep_last_three`: ten resolved items, `v02` already
downloaded, so jobs are enqueued exactly for `v01` and `v03`. -/
theorem c8_keep_last_three_witness :
    (subscriptionFiltered true none c8Entries).length = 10 ∧
    (∀ e ∈ c8Entries, e.already_downloaded = decide (e.video_id ∈ ["v02"])) ∧
    (subscriptionNewVideos true none (some 3) c8Entries =
      ((subscriptionFiltered true none c8Entries).take 3).filter
        (fun e => !e.already_downloaded) ∧
    (subscriptionNewVideos true none (some 3) c8Entries).length ≤ 3 ∧
    ∀ e ∈ subscriptionNewVideos true none (some 3) c8Entries,
      e ∈ (subscriptionFiltered true none c8Entries).take 3 ∧
      e.video_id ∉ ["v02"]) := by
  refine ⟨by decide, by decide, ?_⟩
  exact c8_keep_last_three true none ["v02"] c8Entries (by decide) (by decide)

/-! ## Claim C9 — `download` always returns a well-formed dictionary -/

/-- C9: for every input to `download` — every line trace, exception during
the loop, post-loop cancellation flag, exit code, and await behaviour
(normal return, `asyncio.CancelledError`, or any other exception) — the
call returns a dictionary with a Boolean `success`; when `success` is true
there is no error, and when it is false an `error` string is present.  No
path re-raises (every constructor of `AwaitBehavior` is mapped to a
dictionary). -/
theorem c9_download_always_dict : ∀ (cb : Bool) (lines : List LineInfo)
    (exn : Option String) (cancelAfter : Bool) (rc : Int) (aw : AwaitBehavior),
    ((downloadModel cb lines exn cancelAfter rc aw).success = true ∧
      (downloadModel cb lines exn cancelAfter rc aw).error = none) ∨
    ((downloadModel cb lines exn cancelAfter rc aw).success = false ∧
      ((downloadModel cb lines exn cancelAfter rc aw).error).isSome = true) := by
  intro cb lines exn cancelAfter rc aw
  cases aw with
  | taskCancelled => exact Or.inr ⟨rfl, rfl⟩
  | raised msg => exact Or.inr ⟨rfl, rfl⟩
  | normal =>
    cases h : runProcess cb lines exn cancelAfter rc with
    | cancelled pf => exact Or.inr (by simp [downloadModel, h, Option.isSome])
    | success fn => exact Or.inl (by simp [downloadModel, h])
    | failure e => exact Or.inr (by simp [downloadModel, h, Option.isSome])

/-! ### Arithmetic facts about the thresholds -/

/-- A percent that is at least `99.9` is not below `50`. -/
theorem dec_le999_not_lt50 (p : Dec) (h : Dec.le d999 p = true) :
    Dec.lt p d50 = false := by
  simp only [Dec.le, d999, decide_eq_true_eq, pow_one] at h
  simp only [Dec.lt, d50, decide_eq_false_iff_not, pow_zero, mul_one, not_lt]
  have hk : 0 < 10 ^ p.e := Nat.pos_pow_of_pos _ (by norm_num)
  omega

/-- A percent that is at least `99.9` is at least `99` (so the throttle
always lets it through). -/
theorem dec_le999_le99 (p : Dec) (h : Dec.le d999 p = true) :
    Dec.le d99 p = true := by
  simp only [Dec.le, d999, decide_eq_true_eq, pow_one] at h
  simp only [Dec.le, d99, decide_eq_true_eq, pow_zero, mul_one]
  omega

/-! ### Behaviour of the percent branch -/

/-- The percent branch never touches `current_file` or `filename`. -/
theorem stepProg_files (cb : Bool) (s : LoopState) (p : Dec) (sp et : Option String)
    (t : Dec) :
    (stepProg cb s p sp et t).2.currentFile = s.currentFile ∧
    (stepProg cb s p sp et t).2.filename = s.filename := by
  simp only [stepProg]
  split_ifs <;> exact ⟨rfl, rfl⟩

/-- When the reset condition holds (`percent < 50` and previous `> 90`),
the percent branch emits the stream reset first, and nothing after it in
this line's output is another reset. -/
theorem stepProg_reset_head (cb : Bool) (s : LoopState) (p : Dec) (sp et : Option String)
    (t : Dec) (hr : (Dec.lt p d50 && Dec.lt d90 s.lastVal) = true) :
    ∃ rest, (stepProg cb s p sp et t).1 = PEvent.streamReset :: rest ∧
      rest.countP isResetEv = 0 := by
  simp only [stepProg, hr, reduceIte, Bool.not_false, Bool.and_true]
  split_ifs
  · exact ⟨[PEvent.processing "Processing..."], rfl, rfl⟩
  · exact ⟨[PEvent.downloading p sp et], rfl, rfl⟩
  · exact ⟨[], rfl, rfl⟩

/-- When the reset condition fails, the percent branch emits no reset. -/
theorem stepProg_no_reset (cb : Bool) (s : LoopState) (p : Dec) (sp et : Option String)
    (t : Dec) (hr : (Dec.lt p d50 && Dec.lt d90 s.lastVal) = false) :
    (stepProg cb s p sp et t).1.countP isResetEv = 0 := by
  simp only [stepProg, hr, Bool.false_eq_true, reduceIte]
  split_ifs <;> rfl

/-- When the reset condition fails and the suppression flag is set, the
percent branch emits nothing and keeps the flag set. -/
theorem stepProg_suppressed (cb : Bool) (s : LoopState) (p : Dec) (sp et : Option String)
    (t : Dec) (hs : s.sent = true)
    (hr : (Dec.lt p d50 && Dec.lt d90 s.lastVal) = false) :
    (stepProg cb s p sp et t).1 = [] ∧ (stepProg cb s p sp et t).2.sent = true := by
  simp only [stepProg, hr, Bool.false_eq_true, reduceIte, hs, Bool.not_true,
    Bool.and_false]
  split_ifs <;> exact ⟨rfl, rfl⟩

/-- The first progress line at or above `99.9` percent since the reset
(suppression flag clear) emits exactly the `Processing("Processing...")`
event and sets the suppression flag. -/
theorem stepProg_first_high (s : LoopState) (p : Dec) (sp et : Option String)
    (t : Dec) (hs : s.sent = false) (hp : Dec.le d999 p = true) :
    (stepProg true s p sp et t).1 = [PEvent.processing "Processing..."] ∧
    (stepProg true s p sp et t).2.sent = true := by
  have h50 : Dec.lt p d50 = false := dec_le999_not_lt50 p hp
  have h99 : Dec.le d99 p = true := dec_le999_le99 p hp
  simp only [stepProg, h50, hs, h99, hp, Bool.false_and, reduceIte, Bool.not_false,
    Bool.and_true, Bool.or_true, Bool.true_and, Bool.and_self, List.nil_append]
  exact ⟨rfl, rfl⟩

/-! ### Behaviour of one loop iteration -/

/-- `optOr a none = a`. -/
theorem optOr_none (a : Option String) : optOr a none = a := by
  cases a <;> rfl

/-- `optOr` is associative. -/
theorem optOr_assoc (a b c : Option String) :
    optOr a (optOr b c) = optOr (optOr a b) c := by
  cases a <;> rfl

/-- On a line whose percent parse succeeds, the iteration is the percent
branch: its events, and the suppression flag afterwards, are those of
`stepProg`. -/
theorem stepLine_percent (cb : Bool) (s : LoopState) (l : LineInfo) (p : Dec)
    (hp : parsedPercent l = some p) :
    (stepLine cb s l).1 = (stepProg cb s p l.speedField l.etaField l.time).1 ∧
    (stepLine cb s l).2.sent = (stepProg cb s p l.speedField l.etaField l.time).2.sent := by
  unfold parsedPercent at hp
  by_cases h1 : containsL ("[download] Destination:").data (pyStripL l.text.data) = true
  · simp only [h1, reduceIte] at hp
    exact Option.noConfusion hp
  · rw [Bool.not_eq_true] at h1
    by_cases h2 : (containsL ("[download]").data (pyStripL l.text.data) &&
        containsL ("%").data (pyStripL l.text.data)) = true
    · simp only [h1, h2, Bool.false_eq_true, reduceIte] at hp
      cases hc : capturedPath l with
      | some fp =>
        constructor
        · simp only [stepLine, h1, h2, Bool.false_eq_true, reduceIte, hp]
        · simp only [stepLine, h1, h2, Bool.false_eq_true, reduceIte, hp, hc]
      | none =>
        constructor
        · simp only [stepLine, h1, h2, Bool.false_eq_true, reduceIte, hp]
        · simp only [stepLine, h1, h2, Bool.false_eq_true, reduceIte, hp, hc]
    · rw [Bool.not_eq_true] at h2
      simp only [h1, h2, Bool.false_eq_true, reduceIte] at hp
      exact Option.noConfusion hp

/-- A line with no parsed percent emits no `downloading` event and cannot
clear an already-set suppression flag. -/
theorem stepLine_no_percent (cb : Bool) (s : LoopState) (l : LineInfo)
    (hs : s.sent = true) (hnone : parsedPercent l = none) :
    (stepLine cb s l).1.countP isDownloadingEv = 0 ∧ (stepLine cb s l).2.sent = true := by
  unfold parsedPercent at hnone
  by_cases h1 : containsL ("[download] Destination:").data (pyStripL l.text.data) = true
  · constructor
    · simp only [stepLine, h1, reduceIte]
      rfl
    · simp only [stepLine, h1, reduceIte]
      cases hcp : capturedPath l <;> simp only [hcp] <;> exact hs
  · rw [Bool.not_eq_true] at h1
    by_cases h2 : (containsL ("[download]").data (pyStripL l.text.data) &&
        containsL ("%").data (pyStripL l.text.data)) = true
    · simp only [h1, h2, Bool.false_eq_true, reduceIte] at hnone
      constructor
      · simp only [stepLine, h1, h2, Bool.false_eq_true, reduceIte, hnone]
        rfl
      · simp only [stepLine, h1, h2, Bool.false_eq_true, reduceIte, hnone]
        cases hcp : capturedPath l <;> simp only [hcp] <;> exact hs
    · rw [Bool.not_eq_true] at h2
      by_cases h3 : (("[").data.isPrefixOf (pyStripL l.text.data) && cb) = true
      · cases hf : ppDescrs.find? (fun pr => pr.1.data.isPrefixOf (pyStripL l.text.data)) with
        | some pr =>
          constructor
          · simp only [stepLine, h1, h2, h3, Bool.false_eq_true, reduceIte, hf]
            rfl
          · simp only [stepLine, h1, h2, h3, Bool.false_eq_true, reduceIte, hf]
            cases hcp : capturedPath l <;> simp only [hcp]
        | none =>
          constructor
          · simp only [stepLine, h1, h2, h3, Bool.false_eq_true, reduceIte, hf]
            rfl
          · simp only [stepLine, h1, h2, h3, Bool.false_eq_true, reduceIte, hf]
            cases hcp : capturedPath l <;> simp only [hcp] <;> exact hs
      · rw [Bool.not_eq_true] at h3
        constructor
        · simp only [stepLine, h1, h2, h3, Bool.false_eq_true, reduceIte]
          rfl
        · simp only [stepLine, h1, h2, h3, Bool.false_eq_true, reduceIte]
          cases hcp : capturedPath l <;> simp only [hcp] <;> exact hs

/-- Once the suppression flag is set, an iteration that emits no stream
reset emits no `downloading` event and keeps the flag set. -/
theorem stepLine_suppressed (cb : Bool) (s : LoopState) (l : LineInfo)
    (hs : s.sent = true)
    (hnr : (stepLine cb s l).1.countP isResetEv = 0) :
    (stepLine cb s l).1.countP isDownloadingEv = 0 ∧ (stepLine cb s l).2.sent = true := by
  cases hp : parsedPercent l with
  | none => exact stepLine_no_percent cb s l hs hp
  | some p =>
    obtain ⟨hev, hsent⟩ := stepLine_percent cb s l p hp
    rw [hev] at hnr ⊢
    rw [hsent]
    by_cases hr : (Dec.lt p d50 && Dec.lt d90 s.lastVal) = true
    · obtain ⟨rest, hrst, _⟩ :=
        stepProg_reset_head cb s p l.speedField l.etaField l.time hr
      rw [hrst] at hnr
      simp [List.countP_cons, isResetEv] at hnr
    · rw [Bool.not_eq_true] at hr
      obtain ⟨he, hse⟩ :=
        stepProg_suppressed cb s p l.speedField l.etaField l.time hs hr
      rw [he, hse]
      exact ⟨rfl, rfl⟩

/-- Once the suppression flag is set, the rest of the run emits no
`downloading` event as long as no stream reset occurs. -/
theorem runLines_suppressed (cb : Bool) (ls : List LineInfo) (s : LoopState)
    (hs : s.sent = true)
    (hnr : (runLines cb s ls).events.countP isResetEv = 0) :
    (runLines cb s ls).events.countP isDownloadingEv = 0 := by
  induction ls generalizing s with
  | nil => rfl
  | cons l ls ih =>
    by_cases hskip : (pyStripL l.text.data).isEmpty = true
    · have hred : runLines cb s (l :: ls) = runLines cb s ls := by
        simp [runLines, hskip]
      rw [hred] at hnr ⊢
      exact ih s hs hnr
    · rw [Bool.not_eq_true] at hskip
      by_cases hcan : l.cancelSeen = true
      · have hred : runLines cb s (l :: ls) = LoopOut.cancelledMid [] s.currentFile := by
          simp [runLines, hskip, hcan]
        rw [hred]
        rfl
      · rw [Bool.not_eq_true] at hcan
        cases hrec : runLines cb (stepLine cb s l).2 ls with
        | cancelledMid es2 pf =>
          have hred : runLines cb s (l :: ls) =
              LoopOut.cancelledMid ((stepLine cb s l).1 ++ es2) pf := by
            simp [runLines, hskip, hcan, hrec]
          rw [hred] at hnr ⊢
          simp only [LoopOut.events, List.countP_append] at hnr ⊢
          have h1 : (stepLine cb s l).1.countP isResetEv = 0 := by omega
          have h2 : es2.countP isResetEv = 0 := by omega
          obtain ⟨hd, hsent⟩ := stepLine_suppressed cb s l hs h1
          have h3 := ih (stepLine cb s l).2 hsent (by rw [hrec]; exact h2)
          rw [hrec] at h3
          simp only [LoopOut.events] at h3
          omega
        | done es2 st =>
          have hred : runLines cb s (l :: ls) =
              LoopOut.done ((stepLine cb s l).1 ++ es2) st := by
            simp [runLines, hskip, hcan, hrec]
          rw [hred] at hnr ⊢
          simp only [LoopOut.events, List.countP_append] at hnr ⊢
          have h1 : (stepLine cb s l).1.countP isResetEv = 0 := by omega
          have h2 : es2.countP isResetEv = 0 := by omega
          obtain ⟨hd, hsent⟩ := stepLine_suppressed cb s l hs h1
          have h3 := ih (stepLine cb s l).2 hsent (by rw [hrec]; exact h2)
          rw [hrec] at h3
          simp only [LoopOut.events] at h3
          omega

/-- The `filename` after an iteration: the trailing capture of the line if
it fires, else unchanged. -/
theorem stepLine_filename (cb : Bool) (s : LoopState) (l : LineInfo) :
    (stepLine cb s l).2.filename = optOr (capturedPath l) s.filename := by
  cases hcp : capturedPath l with
  | some fp =>
    simp only [stepLine, hcp, optOr]
  | none =>
    simp only [stepLine, hcp, optOr]
    split_ifs with h1 h2 h3
    · rfl
    · cases hps : percentSearch (pyStripL l.text.data) with
      | some p =>
        simp only [hps]
        exact (stepProg_files cb s p l.speedField l.etaField l.time).2
      | none => simp only [hps]
    · cases hf : ppDescrs.find? (fun pr => pr.1.data.isPrefixOf (pyStripL l.text.data)) with
      | some pr => simp only [hf]
      | none => simp only [hf]
    · rfl

/-- The `current_file` after an iteration: the destination of the line if it
is a `Destination:` line, else unchanged. -/
theorem stepLine_currentFile (cb : Bool) (s : LoopState) (l : LineInfo) :
    (stepLine cb s l).2.currentFile = optOr (destPath l) s.currentFile := by
  unfold destPath
  by_cases h1 : containsL ("[download] Destination:").data (pyStripL l.text.data) = true
  · simp only [stepLine, h1, reduceIte, optOr]
    cases hcp : capturedPath l <;> simp only [hcp]
  · rw [Bool.not_eq_true] at h1
    simp only [stepLine, h1, Bool.false_eq_true, reduceIte, optOr]
    split_ifs with h2 h3
    · cases hps : percentSearch (pyStripL l.text.data) with
      | some p =>
        simp only [hps]
        cases hcp : capturedPath l with
        | some fp =>
          simp only [hcp]
          exact (stepProg_files cb s p l.speedField l.etaField l.time).1
        | none =>
          simp only [hcp]
          exact (stepProg_files cb s p l.speedField l.etaField l.time).1
      | none =>
        simp only [hps]
        cases hcp : capturedPath l <;> simp only [hcp]
    · cases hf : ppDescrs.find? (fun pr => pr.1.data.isPrefixOf (pyStripL l.text.data)) with
      | some pr =>
        simp only [hf]
        cases hcp : capturedPath l <;> simp only [hcp]
      | none =>
        simp only [hf]
        cases hcp : capturedPath l <;> simp only [hcp]
    · cases hcp : capturedPath l <;> simp only [hcp]

/-- A line that strips to nothing contributes no captured path. -/
theorem capturedPath_empty (l : LineInfo) (h : (pyStripL l.text.data).isEmpty = true) :
    capturedPath l = none := by
  simp only [capturedPath, h, Bool.not_true, Bool.false_and, Bool.false_eq_true, reduceIte]

/-- A line that strips to nothing contributes no destination path. -/
theorem destPath_empty (l : LineInfo) (h : (pyStripL l.text.data).isEmpty = true) :
    destPath l = none := by
  have hnil : pyStripL l.text.data = [] := List.isEmpty_iff.mp h
  have hc : containsL ("[download] Destination:").data (pyStripL l.text.data) = false := by
    rw [hnil]
    decide
  simp only [destPath, hc, Bool.false_eq_true, reduceIte]

/-- Running the loop on lines none of which sees the cancellation flag ends
in `done`, with `filename` the last captured final path and `current_file`
the last destination line. -/
theorem runLines_state (cb : Bool) (ls : List LineInfo) (s : LoopState)
    (hnc : ∀ l ∈ ls, l.cancelSeen = false) :
    ∃ evs st, runLines cb s ls = LoopOut.done evs st ∧
      st.filename = optOr (lastSome capturedPath ls) s.filename ∧
      st.currentFile = optOr (lastSome destPath ls) s.currentFile := by
  induction ls generalizing s with
  | nil => exact ⟨[], s, rfl, rfl, rfl⟩
  | cons l ls ih =>
    have hcan : l.cancelSeen = false := hnc l (List.mem_cons_self l ls)
    have hnc' : ∀ l' ∈ ls, l'.cancelSeen = false :=
      fun l' h => hnc l' (List.mem_cons_of_mem l h)
    by_cases hskip : (pyStripL l.text.data).isEmpty = true
    · obtain ⟨evs, st, hrun, h1, h2⟩ := ih s hnc'
      refine ⟨evs, st, ?_, ?_, ?_⟩
      · simp [runLines, hskip, hrun]
      · rw [h1]
        show optOr (lastSome capturedPath ls) s.filename =
          optOr (optOr (lastSome capturedPath ls) (capturedPath l)) s.filename
        rw [capturedPath_empty l hskip, optOr_none]
      · rw [h2]
        show optOr (lastSome destPath ls) s.currentFile =
          optOr (optOr (lastSome destPath ls) (destPath l)) s.currentFile
        rw [destPath_empty l hskip, optOr_none]
    · rw [Bool.not_eq_true] at hskip
      obtain ⟨evs, st, hrun, h1, h2⟩ := ih (stepLine cb s l).2 hnc'
      refine ⟨(stepLine cb s l).1 ++ evs, st, ?_, ?_, ?_⟩
      · simp [runLines, hskip, hcan, hrun]
      · rw [h1, stepLine_filename]
        show optOr (lastSome capturedPath ls) (optOr (capturedPath l) s.filename) =
          optOr (optOr (lastSome capturedPath ls) (capturedPath l)) s.filename
        rw [optOr_assoc]
      · rw [h2, stepLine_currentFile]
        show optOr (lastSome destPath ls) (optOr (destPath l) s.currentFile) =
          optOr (optOr (lastSome destPath ls) (destPath l)) s.currentFile
        rw [optOr_assoc]

/-! ## Claim C1 — stream resets and (non-)monotonicity of percentages -/

/-- Two progress lines whose percents drop from 60 to 40: no reset fires
(the drop is not from above 90 to below 50), and both pass the throttle. -/
def c1Trace : List LineInfo :=
  [mkLine "[download] 60.0%" ⟨1, 0⟩, mkLine "[download] 40.0%" ⟨2, 0⟩]

/-- C1, counterexample: on the trace 60 % → 40 % the loop emits two
`downloading` events with no `streamReset` between them, and the emitted
percentages are NOT monotonically non-decreasing between consecutive
resets — the claim's monotonicity conjunct fails. -/
theorem c1_counterexample :
    (runLines true initLoopState c1Trace).events.countP isResetEv = 0 ∧
    monotoneBR (runLines true initLoopState c1Trace).events = false := by
  decide

/-- C1, amended: whenever a line's parsed percent is below 50 while the
previously observed percent exceeded 90, exactly one `streamReset` is
emitted, at the head of that line's output — hence before the next
`downloading` event — and a line for which that condition fails emits no
`streamReset`.  (Percentages are, however, not monotone between resets, as
`c1_counterexample` shows: a drop not of the `>90 → <50` shape emits no
reset.) -/
theorem c1_amended : ∀ (s : LoopState) (l : LineInfo) (p : Dec),
    parsedPercent l = some p →
    ((Dec.lt p d50 && Dec.lt d90 s.lastVal) = true →
      ∃ rest, (stepLine true s l).1 = PEvent.streamReset :: rest ∧
        rest.countP isResetEv = 0) ∧
    ((Dec.lt p d50 && Dec.lt d90 s.lastVal) = false →
      (stepLine true s l).1.countP isResetEv = 0) := by
  intro s l p hp
  obtain ⟨hev, _⟩ := stepLine_percent true s l p hp
  constructor
  · intro hr
    rw [hev]
    exact stepProg_reset_head true s p l.speedField l.etaField l.time hr
  · intro hr
    rw [hev]
    exact stepProg_no_reset true s p l.speedField l.etaField l.time hr

/-- Loop state with a previously observed percent of 95. -/
def c1wState : LoopState := ⟨none, none, ⟨0, 0⟩, ⟨95, 0⟩, false⟩

/-- Witness for `c1_amended`: a 30 % line after 95 % emits the reset first. -/
theorem c1_amended_witness :
    parsedPercent (mkLine "[download] 30.0%" ⟨1, 0⟩) = some ⟨300, 1⟩ ∧
    (Dec.lt (⟨300, 1⟩ : Dec) d50 && Dec.lt d90 c1wState.lastVal) = true ∧
    ∃ rest, (stepLine true c1wState (mkLine "[download] 30.0%" ⟨1, 0⟩)).1 =
      PEvent.streamReset :: rest ∧ rest.countP isResetEv = 0 := by
  have hp : parsedPercent (mkLine "[download] 30.0%" ⟨1, 0⟩) = some ⟨300, 1⟩ := by
    decide
  have hr : (Dec.lt (⟨300, 1⟩ : Dec) d50 && Dec.lt d90 c1wState.lastVal) = true := by
    decide
  exact ⟨hp, hr, (c1_amended c1wState (mkLine "[download] 30.0%" ⟨1, 0⟩) ⟨300, 1⟩ hp).1 hr⟩

/-! ## Claim C6 — the 99.9 % `Processing` event and suppression -/

/-- A postprocessor tag line followed by a 100 % progress line. -/
def c6Trace : List LineInfo :=
  [mkLine "[Merger] Merging formats" ⟨1, 0⟩, mkLine "[download] 100.0%" ⟨2, 0⟩]

/-- C6, counterexample: the trace contains a progress line with percent
≥ 99.9 and no stream reset at all, yet NO `Processing("Processing...")`
event is emitted (the `[Merger]` line had already set the suppression
flag), refuting "exactly one". -/
theorem c6_counterexample :
    (c6Trace.filterMap parsedPercent).any (fun q => Dec.le d999 q) = true ∧
    (runLines true initLoopState c6Trace).events.countP isResetEv = 0 ∧
    (runLines true initLoopState c6Trace).events.countP
      (fun e => decide (e = PEvent.processing "Processing...")) = 0 := by
  decide

/-- C6, amended: once the suppression flag is set it stays set, and until a
stream reset occurs (or the process exits) no further `downloading` events
are emitted; and the first progress line with percent ≥ 99.9 while the flag
is still clear emits exactly the one `Processing("Processing...")` event
and sets the flag.  ("Exactly one" holds only when no postprocessor tag
line has set the flag first, as `c6_counterexample` shows.) -/
theorem c6_amended : ∀ (s : LoopState) (ls : List LineInfo) (l : LineInfo) (p : Dec),
    (s.sent = true →
      (runLines true s ls).events.countP isResetEv = 0 →
      (runLines true s ls).events.countP isDownloadingEv = 0) ∧
    (s.sent = false → parsedPercent l = some p → Dec.le d999 p = true →
      (stepLine true s l).1 = [PEvent.processing "Processing..."] ∧
      (stepLine true s l).2.sent = true) := by
  intro s ls l p
  constructor
  · exact fun hs hnr => runLines_suppressed true ls s hs hnr
  · intro hs hp hge
    obtain ⟨hev, hsent⟩ := stepLine_percent true s l p hp
    obtain ⟨h1, h2⟩ := stepProg_first_high s p l.speedField l.etaField l.time hs hge
    exact ⟨hev.trans h1, hsent.trans h2⟩

/-- Loop state with the suppression flag already set. -/
def c6wState : LoopState := ⟨none, none, ⟨0, 0⟩, ⟨0, 0⟩, true⟩

/-- A single mid-range progress line (no reset). -/
def c6wTrace : List LineInfo := [mkLine "[download] 50.0%" ⟨1, 0⟩]

/-- Witness for `c6_amended`: with the flag set, the 50 % line is
suppressed; with the flag clear, a 99.9 % line emits the one `Processing`
event. -/
theorem c6_amended_witness :
    (c6wState.sent = true ∧
      (runLines true c6wState c6wTrace).events.countP isResetEv = 0 ∧
      (runLines true c6wState c6wTrace).events.countP isDownloadingEv = 0) ∧
    (initLoopState.sent = false ∧
      parsedPercent (mkLine "[download] 99.9%" ⟨1, 0⟩) = some ⟨999, 1⟩ ∧
      Dec.le d999 ⟨999, 1⟩ = true ∧
      (stepLine true initLoopState (mkLine "[download] 99.9%" ⟨1, 0⟩)).1 =
        [PEvent.processing "Processing..."] ∧
      (stepLine true initLoopState (mkLine "[download] 99.9%" ⟨1, 0⟩)).2.sent = true) := by
  have hs1 : c6wState.sent = true := rfl
  have hnr : (runLines true c6wState c6wTrace).events.countP isResetEv = 0 := by decide
  have hs2 : initLoopState.sent = false := rfl
  have hp : parsedPercent (mkLine "[download] 99.9%" ⟨1, 0⟩) = some ⟨999, 1⟩ := by decide
  have hge : Dec.le d999 ⟨999, 1⟩ = true := by decide
  obtain ⟨ha, hb⟩ :=
    (c6_amended initLoopState [] (mkLine "[download] 99.9%" ⟨1, 0⟩) ⟨999, 1⟩).2 hs2 hp hge
  exact ⟨⟨hs1, hnr,
    (c6_amended c6wState c6wTrace (mkLine "x" ⟨0, 0⟩) ⟨0, 0⟩).1 hs1 hnr⟩,
    ⟨hs2, hp, hge, ha, hb⟩⟩

/-! ## Claim C7 — exit-code dispatch of a non-cancelled run -/

/-- C7: for a run that never sees the cancellation flag, exit code 0 yields
success with the last captured final-path line when one was seen, else the
last known destination path; a nonzero exit code yields failure with the
message built from the exit code. -/
theorem c7_exit_dispatch : ∀ (lines : List LineInfo) (rc : Int),
    (∀ l ∈ lines, l.cancelSeen = false) →
    (rc = 0 → runProcess true lines none false rc =
      RunResult.success (optOr (lastSome capturedPath lines) (lastSome destPath lines))) ∧
    (rc ≠ 0 → runProcess true lines none false rc =
      RunResult.failure ("yt-dlp exited with code " ++ toString rc)) := by
  intro lines rc hnc
  obtain ⟨evs, st, hrun, h1, h2⟩ := runLines_state true lines initLoopState hnc
  have hfn : st.filename = lastSome capturedPath lines := by
    rw [h1]
    exact optOr_none _
  have hcf : st.currentFile = lastSome destPath lines := by
    rw [h2]
    exact optOr_none _
  constructor
  · intro h0
    subst h0
    simp only [runProcess, hrun, Bool.false_eq_true, reduceIte, hfn, hcf]
  · intro hne
    simp only [runProcess, hrun, Bool.false_eq_true, reduceIte]
    rw [if_neg hne]

/-- A destination line followed by the printed final path. -/
def c7wLines : List LineInfo :=
  [mkLine "[download] Destination: downloads/a.mp4" ⟨1, 0⟩,
   mkLine "downloads/a.mp4" ⟨2, 0⟩]

/-- Witness for `c7_exit_dispatch` on a concrete run, for exit codes 0 and
1. -/
theorem c7_exit_dispatch_witness :
    (∀ l ∈ c7wLines, l.cancelSeen = false) ∧
    runProcess true c7wLines none false 0 =
      RunResult.success (some "downloads/a.mp4") ∧
    runProcess true c7wLines none false 1 =
      RunResult.failure "yt-dlp exited with code 1" := by
  have hnc : ∀ l ∈ c7wLines, l.cancelSeen = false := by decide
  have h0 := (c7_exit_dispatch c7wLines 0 hnc).1 rfl
  have h1 := (c7_exit_dispatch c7wLines 1 hnc).2 (by decide)
  exact ⟨hnc, h0.trans (by decide), h1⟩

/-! ## Claim C10 — every cancellation runs the marker sweep -/

/-- A lone `*` matches every string. -/
theorem globM_star_nil (s : List Char) : globM ['*'] s = true := by
  cases s with
  | nil => rfl
  | cons c cs =>
    simp only [globM, reduceIte, List.any_eq_true]
    refine ⟨(c :: cs).length, ?_, ?_⟩
    · simp [List.mem_range]
    · simp [globM, List.drop_length]

/-- The pattern `b*` matches every string having `b` as a prefix (whatever
characters `b` contains). -/
theorem globM_append_star (b : List Char) : ∀ (s : List Char), b <+: s →
    globM (b ++ ['*']) s = true := by
  induction b with
  | nil => exact fun s _ => globM_star_nil s
  | cons x b ih =>
    intro s hpre
    obtain ⟨t, ht⟩ := hpre
    subst ht
    by_cases hx : x = '*'
    · subst hx
      simp only [List.cons_append, globM, reduceIte, List.any_eq_true]
      refine ⟨1, ?_, ?_⟩
      · simp [List.mem_range]
      · simpa using ih (b ++ t) (List.prefix_append b t)
    · by_cases hq : x = '?'
      · subst hq
        simp only [List.cons_append, globM, reduceIte]
        exact ih (b ++ t) (List.prefix_append b t)
      · simp only [List.cons_append, globM, if_neg hx, if_neg hq]
        simp [ih (b ++ t) (List.prefix_append b t)]

/-- One marker step only deletes files. -/
theorem ytdlStep_subset (cur : List FPath) (m : FPath) : ytdlStep cur m ⊆ cur := by
  intro f hf
  unfold ytdlStep deleteFilesByBasename at hf
  exact List.filter_subset' _ (List.filter_subset' _ hf)

/-- The whole marker fold only deletes files. -/
theorem foldl_ytdl_subset (ms : List FPath) :
    ∀ cur : List FPath, ms.foldl ytdlStep cur ⊆ cur := by
  induction ms with
  | nil => exact fun _ _ h => h
  | cons m ms ih => exact fun cur f h => ytdlStep_subset cur m (ih (ytdlStep cur m) h)

/-- Processing a marker removes the marker itself. -/
theorem ytdlStep_kills_marker (cur : List FPath) (m : FPath) : m ∉ ytdlStep cur m := by
  intro hm
  unfold ytdlStep at hm
  have h2 := (List.mem_filter.mp hm).2
  simp at h2

/-- Processing a marker removes every file of the marker's directory whose
name starts with the stem of the marker's video file. -/
theorem ytdlStep_kills_stem (cur : List FPath) (m f : FPath)
    (hpar : fparent f = fparent (videoOf m))
    (hpre : (pstem (fname (videoOf m))).data <+: (fname f).data) :
    f ∉ ytdlStep cur m := by
  intro hf
  unfold ytdlStep deleteFilesByBasename at hf
  have h1 := (List.mem_filter.mp (List.mem_filter.mp hf).1).2
  have hg : globM ((pstem (fname (videoOf m))).data ++ ['*']) (fname f).data = true :=
    globM_append_star _ _ hpre
  simp [hpar, hg] at h1

/-- Anything a marker step deletes, the rest of the fold keeps deleted. -/
theorem cleanupSweep_kills (fs : List FPath) (dir : FPath) (m : FPath)
    (hm : m ∈ fs) (hu : underDir dir m = true)
    (hy : globM (("*.ytdl").data) (fname m).data = true) :
    ∀ f : FPath, (∀ cur, f ∉ ytdlStep cur m) → f ∉ cleanupSweepFS fs dir := by
  intro f hkill hfmem
  unfold cleanupSweepFS at hfmem
  have hmm : m ∈ fs.filter
      (fun p => underDir dir p && globM (("*.ytdl").data) (fname p).data) :=
    List.mem_filter.mpr ⟨hm, by simp [hu, hy]⟩
  obtain ⟨l1, l2, hsplit⟩ := List.append_of_mem hmm
  rw [hsplit, List.foldl_append] at hfmem
  exact hkill _ (foldl_ytdl_subset l2 _ hfmem)

/-- Truncating a marker's name preserves its directory. -/
theorem fparent_videoOf (m : FPath) : fparent (videoOf m) = fparent m := by
  unfold videoOf fparent
  simp

/-- A file in the same directory as a file strictly below `dir` is itself
strictly below `dir`. -/
theorem underDir_parent_file (dir m f : FPath) (hu : underDir dir m = true)
    (hfne : f ≠ []) (hpar : fparent f = fparent m) : underDir dir f = true := by
  rw [underDir, decide_eq_true_eq] at hu
  rw [underDir, decide_eq_true_eq]
  obtain ⟨⟨r, hr⟩, hne⟩ := hu
  have hrne : r ≠ [] := by
    intro h
    rw [h, List.append_nil] at hr
    exact hne hr
  have hpm : fparent m = dir ++ r.dropLast := by
    unfold fparent
    rw [← hr, List.dropLast_append_of_ne_nil dir hrne]
  have hfeq : fparent f ++ [f.getLast hfne] = f := List.dropLast_append_getLast hfne
  constructor
  · rw [← hfeq, hpar, hpm, List.append_assoc]
    exact ⟨_, rfl⟩
  · intro hdf
    have hlen : f.length = (dir ++ r.dropLast).length + 1 := by
      rw [← hfeq, hpar, hpm]
      simp [List.length_append]
      omega
    rw [← hdf] at hlen
    simp [List.length_append] at hlen
    omega
/-- Files outside the swept directory survive the whole marker fold. -/
theorem foldl_ytdl_frame (ms : List FPath) (dir : FPath) (f : FPath)
    (hfne : f ≠ []) (hout : underDir dir f = false)
    (hall : ∀ mk ∈ ms, underDir dir mk = true) :
    ∀ cur, f ∈ cur → f ∈ ms.foldl ytdlStep cur := by
  induction ms with
  | nil => exact fun _ h => h
  | cons mk ms ih =>
    intro cur hcur
    have hmk := hall mk (List.mem_cons_self mk ms)
    have hall' : ∀ x ∈ ms, underDir dir x = true :=
      fun x hx => hall x (List.mem_cons_of_mem mk hx)
    apply ih hall'
    unfold ytdlStep deleteFilesByBasename
    refine List.mem_filter.mpr ⟨List.mem_filter.mpr ⟨hcur, ?_⟩, ?_⟩
    · have hne : ¬ fparent f = fparent (videoOf mk) := by
        rw [fparent_videoOf]
        intro hpar
        have := underDir_parent_file dir mk f hmk hfne hpar
        rw [hout] at this
        exact Bool.false_ne_true this
      simp [hne]
    · have hfm : ¬ f = mk := by
        intro he
        rw [← he] at hmk
        rw [hout] at hmk
        exact Bool.false_ne_true hmk
      simp [hfm]

/-- Files outside the swept directory survive the sweep. -/
theorem cleanupSweep_frame (fs : List FPath) (dir : FPath) (f : FPath)
    (hf : f ∈ fs) (hfne : f ≠ []) (hout : underDir dir f = false) :
    f ∈ cleanupSweepFS fs dir := by
  unfold cleanupSweepFS
  apply foldl_ytdl_frame _ dir f hfne hout _ fs hf
  intro mk hmk
  have h2 := (List.mem_filter.mp hmk).2
  rw [Bool.and_eq_true] at h2
  exact h2.1

/-- C10: a cancellation through the service always ends with the recursive
marker sweep of the downloads directory, whatever job it targets and
whether a current file is known; the sweep deletes every `*.ytdl` marker
below the directory together with every file of the marker's directory
whose name starts with the stem of the marker's video file (also files of
other, unrelated jobs); and files outside the downloads directory are never
touched by the sweep. -/
theorem c10_cancel_sweep : ∀ (dir : FPath) (cf : Option String) (fs : List FPath)
    (m f g : FPath),
    (cancelDownloadFS dir cf fs =
      cleanupSweepFS (match cf with
        | some fp => cleanupPartialFile fp fs
        | none => fs) dir) ∧
    (m ∈ fs → underDir dir m = true → globM (("*.ytdl").data) (fname m).data = true →
      m ∉ cleanupSweepFS fs dir ∧
      (f ∈ fs → fparent f = fparent m →
        (pstem (fname (videoOf m))).data <+: (fname f).data →
        f ∉ cleanupSweepFS fs dir)) ∧
    (g ∈ fs → g ≠ [] → underDir dir g = false → g ∈ cleanupSweepFS fs dir) := by
  intro dir cf fs m f g
  refine ⟨rfl, fun hm hu hy => ⟨?_, fun hf hpar hpre => ?_⟩,
    fun hg hgne hgout => cleanupSweep_frame fs dir g hg hgne hgout⟩
  · exact cleanupSweep_kills fs dir m hm hu hy m (fun cur => ytdlStep_kills_marker cur m)
  · refine cleanupSweep_kills fs dir m hm hu hy f (fun cur => ?_)
    apply ytdlStep_kills_stem cur m f ?_ hpre
    rw [fparent_videoOf]
    exact hpar

/-- Filesystem for the C10 witness: a marker and its stream files for one
job, an unrelated finished file in the same directory tree, and a file
outside the downloads directory. -/
def c10FS : List FPath :=
  [["downloads", "clip.mp4.ytdl"], ["downloads", "clip.mp4"],
   ["downloads", "clip.f140.m4a"], ["downloads", "other.mkv"],
   ["outside", "clip.mp4"]]

/-- Witness for `c10_cancel_sweep`: cancelling (for a job with no known
current file) deletes the marker `clip.mp4.ytdl` and its stem sibling
`clip.f140.m4a`, while the file outside the downloads directory survives. -/
theorem c10_cancel_sweep_witness :
    (["downloads", "clip.mp4.ytdl"] ∈ c10FS ∧
      underDir ["downloads"] ["downloads", "clip.mp4.ytdl"] = true ∧
      globM (("*.ytdl").data) (fname ["downloads", "clip.mp4.ytdl"]).data = true ∧
      ["downloads", "clip.f140.m4a"] ∈ c10FS ∧
      fparent ["downloads", "clip.f140.m4a"] = fparent ["downloads", "clip.mp4.ytdl"] ∧
      (pstem (fname (videoOf ["downloads", "clip.mp4.ytdl"]))).data <+:
        (fname ["downloads", "clip.f140.m4a"]).data ∧
      ["outside", "clip.mp4"] ∈ c10FS ∧ ["outside", "clip.mp4"] ≠ ([] : FPath) ∧
      underDir ["downloads"] ["outside", "clip.mp4"] = false) ∧
    ["downloads", "clip.mp4.ytdl"] ∉ cleanupSweepFS c10FS ["downloads"] ∧
    ["downloads", "clip.f140.m4a"] ∉ cleanupSweepFS c10FS ["downloads"] ∧
    ["outside", "clip.mp4"] ∈ cleanupSweepFS c10FS ["downloads"] := by
  have h := c10_cancel_sweep ["downloads"] none c10FS ["downloads", "clip.mp4.ytdl"]
    ["downloads", "clip.f140.m4a"] ["outside", "clip.mp4"]
  have hm : ["downloads", "clip.mp4.ytdl"] ∈ c10FS := by decide
  have hu : underDir ["downloads"] ["downloads", "clip.mp4.ytdl"] = true := by decide
  have hy : globM (("*.ytdl").data) (fname ["downloads", "clip.mp4.ytdl"]).data = true := by
    decide
  have hf : ["downloads", "clip.f140.m4a"] ∈ c10FS := by decide
  have hpar : fparent ["downloads", "clip.f140.m4a"] =
      fparent ["downloads", "clip.mp4.ytdl"] := by decide
  have hpre : (pstem (fname (videoOf ["downloads", "clip.mp4.ytdl"]))).data <+:
      (fname ["downloads", "clip.f140.m4a"]).data := by decide
  have hg : ["outside", "clip.mp4"] ∈ c10FS := by decide
  have hgne : ["outside", "clip.mp4"] ≠ ([] : FPath) := by decide
  have hgout : underDir ["downloads"] ["outside", "clip.mp4"] = false := by decide
  obtain ⟨-, h2, h3⟩ := h
  obtain ⟨hkm, hks⟩ := h2 hm hu hy
  exact ⟨⟨hm, hu, hy, hf, hpar, hpre, hg, hgne, hgout⟩, hkm, hks hf hpar hpre,
    h3 hg hgne hgout⟩
